import Mathlib

/-
Verification of the rigid-body kinematics integrator of the firefish
repository (`firefish/kinematics.py` together with the concrete cylinder
inertia model of `examples/kinematics_example.py`).

The embedding is shallow: numpy 3-vectors become `Vec3` (triples of
rationals), the classes `KinematicBody` and `KinematicSimulation` become
Lean structures, and the mutating method `time_step` becomes a pure state
transformer returning `Option KinematicSimulation` (`none` models the
IndexError numpy raises on the out-of-range row assignment, which happens
before any state is mutated).  All arithmetic is exact rational
arithmetic; `np.cos`/`np.sin` enter `time_step` as explicit function
parameters, and the concrete end-to-end scenario (which only ever
evaluates them at pitch 0) is run with truncated Taylor polynomials that
agree with cos/sin exactly at 0.  The polymorphic `update_moi` hook is a
parameter `updateMoi : KinematicBody → KinematicBody` of `time_step`,
mirroring the dynamic dispatch `self.body.update_moi()`.
-/

namespace Firefish

/-- A 3-vector of rationals, modelling a numpy array of shape (3,). -/
structure Vec3 where
  x : ℚ
  y : ℚ
  z : ℚ
deriving DecidableEq, Repr

namespace Vec3

/-- The zero vector, `np.zeros(3)`. -/
def zero : Vec3 := ⟨0, 0, 0⟩

instance : Inhabited Vec3 := ⟨zero⟩

/-- Elementwise addition of 3-vectors. -/
def add (a b : Vec3) : Vec3 := ⟨a.x + b.x, a.y + b.y, a.z + b.z⟩

instance : Add Vec3 := ⟨add⟩

/-- Elementwise division of 3-vectors, modelling numpy `a / b`. -/
def ediv (a b : Vec3) : Vec3 := ⟨a.x / b.x, a.y / b.y, a.z / b.z⟩

/-- Scalar multiplication `q * a`. -/
def smul (q : ℚ) (a : Vec3) : Vec3 := ⟨q * a.x, q * a.y, q * a.z⟩

/-- Division of a vector by a scalar, modelling numpy `a / q`. -/
def sdiv (a : Vec3) (q : ℚ) : Vec3 := ⟨a.x / q, a.y / q, a.z / q⟩

theorem add_def (a b : Vec3) : a + b = ⟨a.x + b.x, a.y + b.y, a.z + b.z⟩ := rfl

end Vec3

/--
Application of the pitch rotation matrix
`[[cos θ, 0, sin θ], [0, 1, 0], [-1*sin θ, 0, cos θ]]`
(source lines 77-79) to a vector, given the values `c = cos θ` and
`s = sin θ`.
-/
def rotApply (c s : ℚ) (v : Vec3) : Vec3 :=
  ⟨c * v.x + 0 * v.y + s * v.z,
   0 * v.x + 1 * v.y + 0 * v.z,
   -1 * s * v.x + 0 * v.y + c * v.z⟩

/-- The state of `firefish.kinematics.KinematicBody`. -/
structure KinematicBody where
  mass : ℚ
  MoI : Vec3
  vel : Vec3
  rot : Vec3
deriving DecidableEq, Repr

/-- `KinematicBody.__init__`: stores mass and inertias, zeroes `vel`/`rot`. -/
def KinematicBody.init (mass : ℚ) (inertias : Vec3) : KinematicBody :=
  ⟨mass, inertias, Vec3.zero, Vec3.zero⟩

/-- The base-class `KinematicBody.update_moi`: a no-op. -/
def KinematicBody.update_moi (b : KinematicBody) : KinematicBody := b

/--
The inertia vector of `CylinderRocket` from `examples/kinematics_example.py`
as a function of the mass: a uniform solid cylinder of radius 0.3 and
height 2, `Ixx = Iyy = (mass/12)*(3*r^2 + h^2)`, `Izz = mass*r^2/2`.
-/
def cylMoI (mass : ℚ) : Vec3 :=
  ⟨(mass / 12) * (3 * (3/10)^2 + 2^2),
   (mass / 12) * (3 * (3/10)^2 + 2^2),
   mass * (3/10)^2 / 2⟩

/--
`CylinderRocket.update_moi` from `examples/kinematics_example.py`:
recomputes `MoI` from the current mass via `cylMoI`.  Only `MoI` is
written; mass, velocity and rotation rate are untouched.
-/
def CylinderRocket.update_moi (b : KinematicBody) : KinematicBody :=
  { b with MoI := cylMoI b.mass }

/-- The state of `firefish.kinematics.KinematicSimulation`. -/
structure KinematicSimulation where
  g : ℚ
  body : KinematicBody
  times : List ℚ
  posits : List Vec3
  angles : List Vec3
  dt : ℚ
  tIndex : ℕ
deriving DecidableEq, Repr

/--
`np.linspace(start, stop, num)`: `num` evenly spaced samples whose `i`-th
entry is `start + (stop - start) * i / (num - 1)`; for `num ≥ 2` the last
entry is exactly `stop`, and for `num = 1` the single entry is `start`
(the rational division by `0` yields `0` here, matching numpy's single
sample at `start`).
-/
def linspace (start stop : ℚ) (num : ℕ) : List ℚ :=
  (List.range num).map (fun i : ℕ => start + (stop - start) * (i : ℚ) / ((num : ℚ) - 1))

/--
`KinematicSimulation.__init__` (source lines 33-49):
`times = np.linspace(0, duration, num=duration/dt + 1)` where numpy
truncates the float `num` to an integer (floor, for the positive values
used here); position and angle histories are zero arrays of the same
number of rows; `tIndex` starts at 1 (t = 0 is the on-pad row).
-/
def KinematicSimulation.init (body : KinematicBody) (gravity duration dt : ℚ) :
    KinematicSimulation :=
  let N : ℕ := (⌊duration / dt + 1⌋).toNat
  { g := gravity
    body := body
    times := linspace 0 duration N
    posits := List.replicate N Vec3.zero
    angles := List.replicate N Vec3.zero
    dt := dt
    tIndex := 1 }

/--
The successful branch of `KinematicSimulation.time_step` (source lines
62-102), mirrored statement by statement.  The `updateMoi` parameter
models the dynamically dispatched `self.body.update_moi()` and
`npcos`/`npsin` model `np.cos`/`np.sin`.
-/
def stepResult (updateMoi : KinematicBody → KinematicBody) (npcos npsin : ℚ → ℚ)
    (sim : KinematicSimulation) (forces torques : Vec3) (mdot : ℚ) :
    KinematicSimulation :=
  let posits1 := sim.posits.set sim.tIndex (sim.posits.getD (sim.tIndex - 1) Vec3.zero)
    let angles1 := sim.angles.set sim.tIndex (sim.angles.getD (sim.tIndex - 1) Vec3.zero)
    let body1 : KinematicBody := { sim.body with mass := sim.body.mass - mdot * (1/2) * sim.dt }
    let body2 := updateMoi body1
    let rotdotbody := Vec3.ediv torques body2.MoI
    let theta := (angles1.getD sim.tIndex Vec3.zero).x
    let rotdotglobal := rotApply (npcos theta) (npsin theta) rotdotbody
    let rot0 := body2.rot
    let rotNew := rot0 + Vec3.smul sim.dt rotdotglobal
    let angles2 := angles1.set sim.tIndex
      (angles1.getD sim.tIndex Vec3.zero + Vec3.smul ((1/2) * sim.dt) (rot0 + rotNew))
    let vdotbody := Vec3.sdiv forces body2.mass
    let vdotglobal1 := rotApply (npcos theta) (npsin theta) vdotbody
    let vdotglobal : Vec3 := ⟨vdotglobal1.x, vdotglobal1.y, vdotglobal1.z + -sim.g⟩
    let vel0 := body2.vel
    let velNew := vel0 + Vec3.smul sim.dt vdotglobal
    let posits2 := posits1.set sim.tIndex
      (posits1.getD sim.tIndex Vec3.zero + Vec3.smul ((1/2) * sim.dt) (velNew + vel0))
    let body3 : KinematicBody :=
      { body2 with vel := velNew, rot := rotNew, mass := body2.mass - mdot * (1/2) * sim.dt }
    { sim with body := body3, posits := posits2, angles := angles2,
               tIndex := sim.tIndex + 1 }

/--
`KinematicSimulation.time_step(forces, torques, mdot)` (source lines
50-102), as a pure state transformer.  When `tIndex` is not a valid row
index of the history arrays the call returns `none` and the pre-call
state stands unchanged: numpy raises an IndexError on the very first
statement `self.posits[self.tIndex, :] = ...` of the method, before any
state has been mutated.
-/
def time_step (updateMoi : KinematicBody → KinematicBody) (npcos npsin : ℚ → ℚ)
    (sim : KinematicSimulation) (forces torques : Vec3) (mdot : ℚ) :
    Option KinematicSimulation :=
  if sim.tIndex < sim.posits.length ∧ sim.tIndex < sim.angles.length then
    some (stepResult updateMoi npcos npsin sim forces torques mdot)
  else none

/--
Truncated Taylor polynomial modelling `np.cos`; it agrees with cosine
exactly at 0, the only pitch angle reached in the concrete scenarios below.
-/
def npcosTaylor (t : ℚ) : ℚ := 1 - t^2/2 + t^4/24 - t^6/720

/--
Truncated Taylor polynomial modelling `np.sin`; it agrees with sine
exactly at 0, the only pitch angle reached in the concrete scenarios below.
-/
def npsinTaylor (t : ℚ) : ℚ := t - t^3/6 + t^5/120 - t^7/5040

/-- The rocket of `examples/kinematics_example.py`: initial mass 100,
placeholder inertias `[0,0,0]`, zero initial velocity and rotation rate. -/
def cylinderRocket : KinematicBody := KinematicBody.init 100 ⟨0, 0, 0⟩

/--
One loop iteration of `examples/kinematics_example.py::main`: thrust 2000 N
while `tIndex*dt <= 50`, else 0; forces `[2.0, 0.0, thrust]`, zero torques,
`mdot = 0.1`.
-/
def exampleStep (sim : KinematicSimulation) : Option KinematicSimulation :=
  let thrust : ℚ := if (sim.tIndex : ℚ) * sim.dt ≤ 50 then 2000 else 0
  time_step CylinderRocket.update_moi npcosTaylor npsinTaylor sim
    ⟨2, 0, thrust⟩ ⟨0, 0, 0⟩ (1/10)

/-- Iterate `exampleStep` a given number of times (stopping on failure,
which never occurs in the scenario's 100 iterations). -/
def exampleRun : ℕ → KinematicSimulation → KinematicSimulation
  | 0, sim => sim
  | n + 1, sim =>
    match exampleStep sim with
    | some sim2 => exampleRun n sim2
    | none => sim

/-- The simulation of `examples/kinematics_example.py::main`:
gravity 9.81, duration 100, dt 1. -/
def exampleSim : KinematicSimulation :=
  KinematicSimulation.init cylinderRocket (981/100) 100 1

/-- The state after the example's 100 one-second steps. -/
def exampleFinal : KinematicSimulation := exampleRun 100 exampleSim

/--
A driver loop: perform one `time_step` per entry of `inputs` (an entry is
`(forces, (torques, mdot))`), stopping at the current state if a step
fails.  Models an arbitrary external driver calling `time_step`
repeatedly, as in `examples/kinematics_example.py::main`.
-/
def runSteps (updateMoi : KinematicBody → KinematicBody) (npcos npsin : ℚ → ℚ) :
    List (Vec3 × Vec3 × ℚ) → KinematicSimulation → KinematicSimulation
  | [], sim => sim
  | input :: rest, sim =>
    match time_step updateMoi npcos npsin sim input.1 input.2.1 input.2.2 with
    | some sim2 => runSteps updateMoi npcos npsin rest sim2
    | none => sim

/-- A small concrete body used to instantiate theorems with hypotheses. -/
def demoBody : KinematicBody :=
  { mass := 2, MoI := ⟨1, 1, 1⟩, vel := Vec3.zero, rot := Vec3.zero }

/-- A small concrete simulation state used to instantiate theorems with
hypotheses: three rows, cursor at 1. -/
def demoSim : KinematicSimulation :=
  { g := 10, body := demoBody, times := [0, 1, 2],
    posits := [Vec3.zero, Vec3.zero, Vec3.zero],
    angles := [Vec3.zero, Vec3.zero, Vec3.zero],
    dt := 1, tIndex := 1 }

/-- A second demo body: same mass as `demoBody`, different velocity. -/
def demoBody2 : KinematicBody := { demoBody with vel := ⟨1, 0, 0⟩ }

/--
The state components enumerated by the determinism property: body (mass,
inertia, velocity, rotation rate), history arrays, step cursor, gravity
and time step.  The `times` grid is deliberately not included: it is the
only field `time_step` neither reads nor writes.
-/
def obsState (sim : KinematicSimulation) :
    KinematicBody × List Vec3 × List Vec3 × ℕ × ℚ × ℚ :=
  (sim.body, sim.posits, sim.angles, sim.tIndex, sim.g, sim.dt)

/--
All y components of the dynamic state vanish: body velocity and rotation
rate, and every row of the position and angle histories (out-of-range
reads default to the zero vector).
-/
def yQuiet (sim : KinematicSimulation) : Prop :=
  sim.body.vel.y = 0 ∧ sim.body.rot.y = 0 ∧
  (∀ i, (sim.posits.getD i Vec3.zero).y = 0) ∧
  (∀ i, (sim.angles.getD i Vec3.zero).y = 0)

/-- The body with the mid-step mass, i.e. the state of `self.body` after
`self.body.mass -= mdot*0.5*self.dt` (source line 67). -/
def midBody (sim : KinematicSimulation) (mdot : ℚ) : KinematicBody :=
  { sim.body with mass := sim.body.mass - mdot * (1/2) * sim.dt }

/-- The pitch angle read at source line 76: the first component of the
row just carried forward. -/
def stepTheta (sim : KinematicSimulation) : ℚ :=
  ((sim.angles.set sim.tIndex
      (sim.angles.getD (sim.tIndex - 1) Vec3.zero)).getD sim.tIndex Vec3.zero).x

theorem time_step_eq_some (u : KinematicBody → KinematicBody) (c s : ℚ → ℚ)
    (sim : KinematicSimulation) (f t : Vec3) (m : ℚ)
    (h1 : sim.tIndex < sim.posits.length) (h2 : sim.tIndex < sim.angles.length) :
    time_step u c s sim f t m = some (stepResult u c s sim f t m) := by
  rw [time_step, if_pos ⟨h1, h2⟩]

theorem time_step_some_iff {u : KinematicBody → KinematicBody} {c s : ℚ → ℚ}
    {sim : KinematicSimulation} {f t : Vec3} {m : ℚ} {sim2 : KinematicSimulation} :
    time_step u c s sim f t m = some sim2 ↔
      (sim.tIndex < sim.posits.length ∧ sim.tIndex < sim.angles.length) ∧
        sim2 = stepResult u c s sim f t m := by
  rw [time_step]
  split
  · rename_i hc
    simp only [Option.some.injEq]
    exact ⟨fun h => ⟨hc, h.symm⟩, fun h => h.2.symm⟩
  · rename_i hc
    simp only [false_iff, reduceCtorEq]
    exact fun h => hc h.1

theorem time_step_none_iff {u : KinematicBody → KinematicBody} {c s : ℚ → ℚ}
    {sim : KinematicSimulation} {f t : Vec3} {m : ℚ} :
    time_step u c s sim f t m = none ↔
      ¬(sim.tIndex < sim.posits.length ∧ sim.tIndex < sim.angles.length) := by
  rw [time_step]
  split <;> simp_all

theorem stepResult_tIndex (u : KinematicBody → KinematicBody) (c s : ℚ → ℚ)
    (sim : KinematicSimulation) (f t : Vec3) (m : ℚ) :
    (stepResult u c s sim f t m).tIndex = sim.tIndex + 1 := rfl

theorem stepResult_g (u : KinematicBody → KinematicBody) (c s : ℚ → ℚ)
    (sim : KinematicSimulation) (f t : Vec3) (m : ℚ) :
    (stepResult u c s sim f t m).g = sim.g := rfl

theorem stepResult_dt (u : KinematicBody → KinematicBody) (c s : ℚ → ℚ)
    (sim : KinematicSimulation) (f t : Vec3) (m : ℚ) :
    (stepResult u c s sim f t m).dt = sim.dt := rfl

theorem stepResult_times (u : KinematicBody → KinematicBody) (c s : ℚ → ℚ)
    (sim : KinematicSimulation) (f t : Vec3) (m : ℚ) :
    (stepResult u c s sim f t m).times = sim.times := rfl

theorem stepResult_body_mass (u : KinematicBody → KinematicBody) (c s : ℚ → ℚ)
    (sim : KinematicSimulation) (f t : Vec3) (m : ℚ) :
    (stepResult u c s sim f t m).body.mass =
      (u (midBody sim m)).mass - m * (1/2) * sim.dt := rfl

theorem stepResult_body_MoI (u : KinematicBody → KinematicBody) (c s : ℚ → ℚ)
    (sim : KinematicSimulation) (f t : Vec3) (m : ℚ) :
    (stepResult u c s sim f t m).body.MoI = (u (midBody sim m)).MoI := rfl

theorem stepResult_body_rot (u : KinematicBody → KinematicBody) (c s : ℚ → ℚ)
    (sim : KinematicSimulation) (f t : Vec3) (m : ℚ) :
    (stepResult u c s sim f t m).body.rot =
      (u (midBody sim m)).rot + Vec3.smul sim.dt
        (rotApply (c (stepTheta sim)) (s (stepTheta sim))
          (Vec3.ediv t (u (midBody sim m)).MoI)) := rfl

theorem stepResult_body_vel (u : KinematicBody → KinematicBody) (c s : ℚ → ℚ)
    (sim : KinematicSimulation) (f t : Vec3) (m : ℚ) :
    (stepResult u c s sim f t m).body.vel =
      (u (midBody sim m)).vel + Vec3.smul sim.dt
        ⟨(rotApply (c (stepTheta sim)) (s (stepTheta sim))
            (Vec3.sdiv f (u (midBody sim m)).mass)).x,
         (rotApply (c (stepTheta sim)) (s (stepTheta sim))
            (Vec3.sdiv f (u (midBody sim m)).mass)).y,
         (rotApply (c (stepTheta sim)) (s (stepTheta sim))
            (Vec3.sdiv f (u (midBody sim m)).mass)).z + -sim.g⟩ := rfl

theorem stepResult_posits_length (u : KinematicBody → KinematicBody) (c s : ℚ → ℚ)
    (sim : KinematicSimulation) (f t : Vec3) (m : ℚ) :
    (stepResult u c s sim f t m).posits.length = sim.posits.length := by
  simp [stepResult]

theorem stepResult_angles_length (u : KinematicBody → KinematicBody) (c s : ℚ → ℚ)
    (sim : KinematicSimulation) (f t : Vec3) (m : ℚ) :
    (stepResult u c s sim f t m).angles.length = sim.angles.length := by
  simp [stepResult]

theorem getD_set_self (l : List Vec3) (i : ℕ) (v : Vec3) (h : i < l.length) :
    (l.set i v).getD i Vec3.zero = v := by
  rw [List.getD_eq_getElem?_getD, List.getElem?_set_self h, Option.getD_some]

theorem stepTheta_eq (sim : KinematicSimulation)
    (h2 : sim.tIndex < sim.angles.length) :
    stepTheta sim = (sim.angles.getD (sim.tIndex - 1) Vec3.zero).x := by
  rw [stepTheta, getD_set_self _ _ _ h2]

theorem stepResult_posits_getD_ne (u : KinematicBody → KinematicBody) (c s : ℚ → ℚ)
    (sim : KinematicSimulation) (f t : Vec3) (m : ℚ) (i : ℕ) (hi : i ≠ sim.tIndex) :
    (stepResult u c s sim f t m).posits.getD i Vec3.zero =
      sim.posits.getD i Vec3.zero := by
  show ((sim.posits.set sim.tIndex _).set sim.tIndex _).getD i Vec3.zero = _
  rw [List.set_set, List.getD_eq_getElem?_getD, List.getElem?_set_ne (Ne.symm hi),
    ← List.getD_eq_getElem?_getD]

theorem stepResult_angles_getD_ne (u : KinematicBody → KinematicBody) (c s : ℚ → ℚ)
    (sim : KinematicSimulation) (f t : Vec3) (m : ℚ) (i : ℕ) (hi : i ≠ sim.tIndex) :
    (stepResult u c s sim f t m).angles.getD i Vec3.zero =
      sim.angles.getD i Vec3.zero := by
  show ((sim.angles.set sim.tIndex _).set sim.tIndex _).getD i Vec3.zero = _
  rw [List.set_set, List.getD_eq_getElem?_getD, List.getElem?_set_ne (Ne.symm hi),
    ← List.getD_eq_getElem?_getD]

theorem stepResult_posits_getD_self (u : KinematicBody → KinematicBody) (c s : ℚ → ℚ)
    (sim : KinematicSimulation) (f t : Vec3) (m : ℚ)
    (h1 : sim.tIndex < sim.posits.length) :
    (stepResult u c s sim f t m).posits.getD sim.tIndex Vec3.zero =
      sim.posits.getD (sim.tIndex - 1) Vec3.zero +
        Vec3.smul ((1/2) * sim.dt)
          ((stepResult u c s sim f t m).body.vel + (u (midBody sim m)).vel) := by
  show ((sim.posits.set sim.tIndex _).set sim.tIndex _).getD sim.tIndex Vec3.zero = _
  rw [List.set_set, getD_set_self _ _ _ h1, getD_set_self _ _ _ h1]
  rfl

theorem stepResult_angles_getD_self (u : KinematicBody → KinematicBody) (c s : ℚ → ℚ)
    (sim : KinematicSimulation) (f t : Vec3) (m : ℚ)
    (h2 : sim.tIndex < sim.angles.length) :
    (stepResult u c s sim f t m).angles.getD sim.tIndex Vec3.zero =
      sim.angles.getD (sim.tIndex - 1) Vec3.zero +
        Vec3.smul ((1/2) * sim.dt)
          ((u (midBody sim m)).rot + (stepResult u c s sim f t m).body.rot) := by
  rw [stepResult_body_rot, stepTheta_eq sim h2]
  show ((sim.angles.set sim.tIndex _).set sim.tIndex _).getD sim.tIndex Vec3.zero = _
  rw [List.set_set, getD_set_self _ _ _ h2, getD_set_self _ _ _ h2]
  rfl

theorem Vec3.add_y (a b : Vec3) : (a + b).y = a.y + b.y := rfl

theorem Vec3.smul_y (q : ℚ) (a : Vec3) : (Vec3.smul q a).y = q * a.y := rfl

theorem Vec3.add_comm (a b : Vec3) : a + b = b + a := by
  show Vec3.add a b = Vec3.add b a
  simp only [Vec3.add, Vec3.mk.injEq]
  exact ⟨Rat.add_comm _ _, Rat.add_comm _ _, Rat.add_comm _ _⟩

theorem Vec3.addneg (v : Vec3) (g : ℚ) :
    (⟨v.x, v.y, v.z + -g⟩ : Vec3) = ⟨v.x, v.y, v.z - g⟩ := by
  rw [← sub_eq_add_neg]

theorem rotApply_y (c s : ℚ) (v : Vec3) : (rotApply c s v).y = v.y := by
  simp [rotApply]

/--
C7: `update_moi` for the concrete cylinder model is idempotent for a
fixed mass, has no side effect beyond `MoI` (mass, velocity, rotation
rate unchanged), and its `MoI` result is a pure function of the current
mass (the fixed geometric constants radius 0.3 and height 2 being baked
into `cylMoI`).
-/
theorem update_moi_idempotent_pure (b b2 : KinematicBody) (hm : b2.mass = b.mass) :
    CylinderRocket.update_moi (CylinderRocket.update_moi b) = CylinderRocket.update_moi b ∧
    (CylinderRocket.update_moi b).mass = b.mass ∧
    (CylinderRocket.update_moi b).vel = b.vel ∧
    (CylinderRocket.update_moi b).rot = b.rot ∧
    (CylinderRocket.update_moi b2).MoI = (CylinderRocket.update_moi b).MoI ∧
    (CylinderRocket.update_moi b).MoI = cylMoI b.mass := by
  refine ⟨rfl, rfl, rfl, rfl, ?_, rfl⟩
  show cylMoI b2.mass = cylMoI b.mass
  rw [hm]

/-- Witness for C7 at concrete bodies of equal mass and different velocity. -/
theorem update_moi_idempotent_pure_witness :
    demoBody2.mass = demoBody.mass ∧
    (CylinderRocket.update_moi (CylinderRocket.update_moi demoBody) =
        CylinderRocket.update_moi demoBody ∧
      (CylinderRocket.update_moi demoBody).mass = demoBody.mass ∧
      (CylinderRocket.update_moi demoBody).vel = demoBody.vel ∧
      (CylinderRocket.update_moi demoBody).rot = demoBody.rot ∧
      (CylinderRocket.update_moi demoBody2).MoI = (CylinderRocket.update_moi demoBody).MoI ∧
      (CylinderRocket.update_moi demoBody).MoI = cylMoI demoBody.mass) :=
  ⟨rfl, update_moi_idempotent_pure demoBody demoBody2 rfl⟩

/--
C9: `time_step` is deterministic.  Two simulations that agree on the
fields the property enumerates (body state, history contents, cursor,
gravity, time step — `obsState`), stepped with equal forces, torques and
`mdot`, fail together or succeed together with equal resulting states (on
those same fields; the unread `times` grid is carried through unchanged
by each call).
-/
theorem time_step_deterministic (u : KinematicBody → KinematicBody) (c s : ℚ → ℚ)
    (s1 s2 : KinematicSimulation) (f1 f2 t1 t2 : Vec3) (m1 m2 : ℚ)
    (hobs : obsState s1 = obsState s2) (hf : f1 = f2) (ht : t1 = t2) (hm : m1 = m2) :
    Option.map obsState (time_step u c s s1 f1 t1 m1) =
      Option.map obsState (time_step u c s s2 f2 t2 m2) := by
  subst hf ht hm
  obtain ⟨g1, b1, T1, p1, a1, dt1, i1⟩ := s1
  obtain ⟨g2, b2, T2, p2, a2, dt2, i2⟩ := s2
  simp only [obsState, Prod.mk.injEq] at hobs
  obtain ⟨hb, hp, ha, hi, hg, hdt⟩ := hobs
  subst hb hp ha hi hg hdt
  by_cases hgd : i1 < p1.length ∧ i1 < a1.length
  · rw [time_step, if_pos hgd, time_step, if_pos hgd]
    rfl
  · rw [time_step, if_neg hgd, time_step, if_neg hgd]

/-- Witness for C9: two states differing only in the unread `times` grid. -/
theorem time_step_deterministic_witness :
    obsState demoSim = obsState { demoSim with times := [3, 3, 3] } ∧
    Option.map obsState
        (time_step KinematicBody.update_moi npcosTaylor npsinTaylor demoSim
          ⟨1, 2, 3⟩ ⟨4, 5, 6⟩ (1/10)) =
      Option.map obsState
        (time_step KinematicBody.update_moi npcosTaylor npsinTaylor
          { demoSim with times := [3, 3, 3] } ⟨1, 2, 3⟩ ⟨4, 5, 6⟩ (1/10)) :=
  ⟨rfl, time_step_deterministic KinematicBody.update_moi npcosTaylor npsinTaylor
    demoSim { demoSim with times := [3, 3, 3] } _ _ _ _ _ _ rfl rfl rfl rfl⟩

/--
C3: every successful `time_step` depletes the mass by exactly `mdot*dt`:
the two half-depletions telescope with no residual, while the inertia
recomputation inside the step sees exactly the half-depleted mid-step
mass (here for any inertia model that recomputes `MoI` as a pure function
`moiFn` of the mass, as the cylinder model does).
-/
theorem mass_depletion_exact (u : KinematicBody → KinematicBody) (moiFn : ℚ → Vec3)
    (hI : ∀ b, u b = { b with MoI := moiFn b.mass })
    (c s : ℚ → ℚ) (sim : KinematicSimulation) (forces torques : Vec3) (mdot : ℚ)
    (sim2 : KinematicSimulation)
    (h : time_step u c s sim forces torques mdot = some sim2) :
    sim2.body.mass = sim.body.mass - mdot * sim.dt ∧
    sim2.body.MoI = moiFn (sim.body.mass - mdot * (1/2) * sim.dt) := by
  obtain ⟨-, rfl⟩ := time_step_some_iff.mp h
  constructor
  · rw [stepResult_body_mass, hI]
    show sim.body.mass - mdot * (1/2) * sim.dt - mdot * (1/2) * sim.dt = _
    ring
  · rw [stepResult_body_MoI, hI]
    rfl

/-- Witness for C3 at a concrete state with `mdot = 1/10`, `dt = 1`. -/
theorem mass_depletion_exact_witness :
    (∀ b, CylinderRocket.update_moi b = { b with MoI := cylMoI b.mass }) ∧
    time_step CylinderRocket.update_moi npcosTaylor npsinTaylor demoSim
        Vec3.zero Vec3.zero (1/10) =
      some (stepResult CylinderRocket.update_moi npcosTaylor npsinTaylor demoSim
        Vec3.zero Vec3.zero (1/10)) ∧
    ((stepResult CylinderRocket.update_moi npcosTaylor npsinTaylor demoSim
        Vec3.zero Vec3.zero (1/10)).body.mass =
      demoSim.body.mass - (1/10) * demoSim.dt ∧
     (stepResult CylinderRocket.update_moi npcosTaylor npsinTaylor demoSim
        Vec3.zero Vec3.zero (1/10)).body.MoI =
      cylMoI (demoSim.body.mass - (1/10) * (1/2) * demoSim.dt)) :=
  ⟨fun b => rfl,
   time_step_eq_some _ _ _ _ _ _ _ (by decide) (by decide),
   mass_depletion_exact CylinderRocket.update_moi cylMoI (fun b => rfl)
     npcosTaylor npsinTaylor demoSim Vec3.zero Vec3.zero (1/10) _
     (time_step_eq_some _ _ _ _ _ _ _ (by decide) (by decide))⟩

/--
C1: the translational update of a successful `time_step`: the body-frame
linear acceleration is `forces / mass` at the mid-step mass (mass after
the first half-depletion), it is transformed to the global frame by the
same pitch rotation matrix used for the angular acceleration (built from
the carried-forward previous pitch angle), gravity is subtracted from the
global z component, the new velocity is `velocity_old + accelGlobal*dt`,
and the position row at the pre-call cursor is the carried-forward
previous position plus `0.5*(velocity_old + velocity_new)*dt`.
-/
theorem translational_update (u : KinematicBody → KinematicBody) (moiFn : ℚ → Vec3)
    (hI : ∀ b, u b = { b with MoI := moiFn b.mass })
    (npcos npsin : ℚ → ℚ) (sim : KinematicSimulation) (forces torques : Vec3)
    (mdot : ℚ) (sim2 : KinematicSimulation)
    (h : time_step u npcos npsin sim forces torques mdot = some sim2) :
    sim2.body.vel =
      sim.body.vel + Vec3.smul sim.dt
        ⟨(rotApply (npcos (sim.angles.getD (sim.tIndex - 1) Vec3.zero).x)
             (npsin (sim.angles.getD (sim.tIndex - 1) Vec3.zero).x)
             (Vec3.sdiv forces (sim.body.mass - mdot * (1/2) * sim.dt))).x,
         (rotApply (npcos (sim.angles.getD (sim.tIndex - 1) Vec3.zero).x)
             (npsin (sim.angles.getD (sim.tIndex - 1) Vec3.zero).x)
             (Vec3.sdiv forces (sim.body.mass - mdot * (1/2) * sim.dt))).y,
         (rotApply (npcos (sim.angles.getD (sim.tIndex - 1) Vec3.zero).x)
             (npsin (sim.angles.getD (sim.tIndex - 1) Vec3.zero).x)
             (Vec3.sdiv forces (sim.body.mass - mdot * (1/2) * sim.dt))).z - sim.g⟩ ∧
    sim2.posits.getD sim.tIndex Vec3.zero =
      sim.posits.getD (sim.tIndex - 1) Vec3.zero +
        Vec3.smul ((1/2) * sim.dt) (sim.body.vel + sim2.body.vel) := by
  obtain ⟨⟨h1, h2⟩, rfl⟩ := time_step_some_iff.mp h
  have hv := stepResult_body_vel u npcos npsin sim forces torques mdot
  rw [stepTheta_eq sim h2] at hv
  constructor
  · rw [hv, hI, Vec3.addneg]
    rfl
  · rw [stepResult_posits_getD_self u npcos npsin sim forces torques mdot h1,
      Vec3.add_comm ((stepResult u npcos npsin sim forces torques mdot).body.vel)
        ((u (midBody sim mdot)).vel), hI]
    rfl

/-- Witness for C1 at a concrete state and concrete forces. -/
theorem translational_update_witness :
    (∀ b, CylinderRocket.update_moi b = { b with MoI := cylMoI b.mass }) ∧
    time_step CylinderRocket.update_moi npcosTaylor npsinTaylor demoSim
        ⟨1, 2, 3⟩ ⟨4, 5, 6⟩ (1/10) =
      some (stepResult CylinderRocket.update_moi npcosTaylor npsinTaylor demoSim
        ⟨1, 2, 3⟩ ⟨4, 5, 6⟩ (1/10)) ∧
    ((stepResult CylinderRocket.update_moi npcosTaylor npsinTaylor demoSim
        ⟨1, 2, 3⟩ ⟨4, 5, 6⟩ (1/10)).body.vel =
      demoSim.body.vel + Vec3.smul demoSim.dt
        ⟨(rotApply (npcosTaylor (demoSim.angles.getD (demoSim.tIndex - 1) Vec3.zero).x)
             (npsinTaylor (demoSim.angles.getD (demoSim.tIndex - 1) Vec3.zero).x)
             (Vec3.sdiv ⟨1, 2, 3⟩ (demoSim.body.mass - (1/10) * (1/2) * demoSim.dt))).x,
         (rotApply (npcosTaylor (demoSim.angles.getD (demoSim.tIndex - 1) Vec3.zero).x)
             (npsinTaylor (demoSim.angles.getD (demoSim.tIndex - 1) Vec3.zero).x)
             (Vec3.sdiv ⟨1, 2, 3⟩ (demoSim.body.mass - (1/10) * (1/2) * demoSim.dt))).y,
         (rotApply (npcosTaylor (demoSim.angles.getD (demoSim.tIndex - 1) Vec3.zero).x)
             (npsinTaylor (demoSim.angles.getD (demoSim.tIndex - 1) Vec3.zero).x)
             (Vec3.sdiv ⟨1, 2, 3⟩ (demoSim.body.mass - (1/10) * (1/2) * demoSim.dt))).z
           - demoSim.g⟩ ∧
     (stepResult CylinderRocket.update_moi npcosTaylor npsinTaylor demoSim
        ⟨1, 2, 3⟩ ⟨4, 5, 6⟩ (1/10)).posits.getD demoSim.tIndex Vec3.zero =
      demoSim.posits.getD (demoSim.tIndex - 1) Vec3.zero +
        Vec3.smul ((1/2) * demoSim.dt)
          (demoSim.body.vel +
            (stepResult CylinderRocket.update_moi npcosTaylor npsinTaylor demoSim
              ⟨1, 2, 3⟩ ⟨4, 5, 6⟩ (1/10)).body.vel)) :=
  ⟨fun b => rfl,
   time_step_eq_some _ _ _ _ _ _ _ (by decide) (by decide),
   translational_update CylinderRocket.update_moi cylMoI (fun b => rfl)
     npcosTaylor npsinTaylor demoSim ⟨1, 2, 3⟩ ⟨4, 5, 6⟩ (1/10) _
     (time_step_eq_some _ _ _ _ _ _ _ (by decide) (by decide))⟩

/--
C2: the rotational update of a successful `time_step`: the rotation
matrix is the rotation about the global Y axis by the carried-forward
previous pitch angle (rows `[cos, 0, sin]`, `[0, 1, 0]`,
`[-sin, 0, cos]`), the body-frame angular acceleration is
`torques / momentsOfInertia` elementwise with the inertia recomputed at
the mid-step mass, the new rotation rate is
`rotationRate_old + rotAccelGlobal*dt`, and the angle row at the pre-call
cursor is the carried-forward previous angle plus
`0.5*(rotationRate_old + rotationRate_new)*dt`.
-/
theorem rotational_update (u : KinematicBody → KinematicBody) (moiFn : ℚ → Vec3)
    (hI : ∀ b, u b = { b with MoI := moiFn b.mass })
    (npcos npsin : ℚ → ℚ) (sim : KinematicSimulation) (forces torques : Vec3)
    (mdot : ℚ) (sim2 : KinematicSimulation)
    (h : time_step u npcos npsin sim forces torques mdot = some sim2) :
    (∀ v : Vec3,
      rotApply (npcos (sim.angles.getD (sim.tIndex - 1) Vec3.zero).x)
          (npsin (sim.angles.getD (sim.tIndex - 1) Vec3.zero).x) v =
        ⟨npcos (sim.angles.getD (sim.tIndex - 1) Vec3.zero).x * v.x +
           npsin (sim.angles.getD (sim.tIndex - 1) Vec3.zero).x * v.z,
         v.y,
         -(npsin (sim.angles.getD (sim.tIndex - 1) Vec3.zero).x * v.x) +
           npcos (sim.angles.getD (sim.tIndex - 1) Vec3.zero).x * v.z⟩) ∧
    sim2.body.rot =
      sim.body.rot + Vec3.smul sim.dt
        (rotApply (npcos (sim.angles.getD (sim.tIndex - 1) Vec3.zero).x)
          (npsin (sim.angles.getD (sim.tIndex - 1) Vec3.zero).x)
          (Vec3.ediv torques (moiFn (sim.body.mass - mdot * (1/2) * sim.dt)))) ∧
    sim2.angles.getD sim.tIndex Vec3.zero =
      sim.angles.getD (sim.tIndex - 1) Vec3.zero +
        Vec3.smul ((1/2) * sim.dt) (sim.body.rot + sim2.body.rot) := by
  obtain ⟨⟨h1, h2⟩, rfl⟩ := time_step_some_iff.mp h
  have hr := stepResult_body_rot u npcos npsin sim forces torques mdot
  rw [stepTheta_eq sim h2] at hr
  refine ⟨?_, ?_, ?_⟩
  · intro v
    simp only [rotApply, Vec3.mk.injEq]
    exact ⟨by ring, by ring, by ring⟩
  · rw [hr, hI]
    rfl
  · rw [stepResult_angles_getD_self u npcos npsin sim forces torques mdot h2, hI]
    rfl

/-- Witness for C2 at a concrete state and concrete torques. -/
theorem rotational_update_witness :
    (∀ b, CylinderRocket.update_moi b = { b with MoI := cylMoI b.mass }) ∧
    time_step CylinderRocket.update_moi npcosTaylor npsinTaylor demoSim
        ⟨1, 2, 3⟩ ⟨4, 5, 6⟩ (1/10) =
      some (stepResult CylinderRocket.update_moi npcosTaylor npsinTaylor demoSim
        ⟨1, 2, 3⟩ ⟨4, 5, 6⟩ (1/10)) ∧
    ((∀ v : Vec3,
      rotApply (npcosTaylor (demoSim.angles.getD (demoSim.tIndex - 1) Vec3.zero).x)
          (npsinTaylor (demoSim.angles.getD (demoSim.tIndex - 1) Vec3.zero).x) v =
        ⟨npcosTaylor (demoSim.angles.getD (demoSim.tIndex - 1) Vec3.zero).x * v.x +
           npsinTaylor (demoSim.angles.getD (demoSim.tIndex - 1) Vec3.zero).x * v.z,
         v.y,
         -(npsinTaylor (demoSim.angles.getD (demoSim.tIndex - 1) Vec3.zero).x * v.x) +
           npcosTaylor (demoSim.angles.getD (demoSim.tIndex - 1) Vec3.zero).x * v.z⟩) ∧
     (stepResult CylinderRocket.update_moi npcosTaylor npsinTaylor demoSim
        ⟨1, 2, 3⟩ ⟨4, 5, 6⟩ (1/10)).body.rot =
      demoSim.body.rot + Vec3.smul demoSim.dt
        (rotApply (npcosTaylor (demoSim.angles.getD (demoSim.tIndex - 1) Vec3.zero).x)
          (npsinTaylor (demoSim.angles.getD (demoSim.tIndex - 1) Vec3.zero).x)
          (Vec3.ediv ⟨4, 5, 6⟩ (cylMoI (demoSim.body.mass - (1/10) * (1/2) * demoSim.dt)))) ∧
     (stepResult CylinderRocket.update_moi npcosTaylor npsinTaylor demoSim
        ⟨1, 2, 3⟩ ⟨4, 5, 6⟩ (1/10)).angles.getD demoSim.tIndex Vec3.zero =
      demoSim.angles.getD (demoSim.tIndex - 1) Vec3.zero +
        Vec3.smul ((1/2) * demoSim.dt)
          (demoSim.body.rot +
            (stepResult CylinderRocket.update_moi npcosTaylor npsinTaylor demoSim
              ⟨1, 2, 3⟩ ⟨4, 5, 6⟩ (1/10)).body.rot)) :=
  ⟨fun b => rfl,
   time_step_eq_some _ _ _ _ _ _ _ (by decide) (by decide),
   rotational_update CylinderRocket.update_moi cylMoI (fun b => rfl)
     npcosTaylor npsinTaylor demoSim ⟨1, 2, 3⟩ ⟨4, 5, 6⟩ (1/10) _
     (time_step_eq_some _ _ _ _ _ _ _ (by decide) (by decide))⟩

/--
C4: stepping past the end of the history arrays fails explicitly instead
of writing out of bounds or wrapping, and a failed call mutates no state
(`time_step` returns `none` and the input state stands untouched,
mirroring the IndexError numpy raises on the method's first statement,
before any assignment has happened); stepping at `tIndex = N - 1`
succeeds, leaves `tIndex = N`, and a further call fails.
-/
theorem step_bounds (u : KinematicBody → KinematicBody) (c s : ℚ → ℚ)
    (forces torques : Vec3) (mdot : ℚ) (sim : KinematicSimulation) (N : ℕ)
    (hp : sim.posits.length = N) (ha : sim.angles.length = N) :
    (N ≤ sim.tIndex → time_step u c s sim forces torques mdot = none) ∧
    (sim.tIndex + 1 = N →
      ∃ sim2, time_step u c s sim forces torques mdot = some sim2 ∧
        sim2.tIndex = N ∧
        time_step u c s sim2 forces torques mdot = none) := by
  constructor
  · intro hN
    rw [time_step_none_iff]
    rintro ⟨hl, -⟩
    omega
  · intro hN
    have h1 : sim.tIndex < sim.posits.length := by omega
    have h2 : sim.tIndex < sim.angles.length := by omega
    refine ⟨_, time_step_eq_some u c s sim forces torques mdot h1 h2, ?_, ?_⟩
    · rw [stepResult_tIndex]
      omega
    · rw [time_step_none_iff]
      rintro ⟨hl, -⟩
      rw [stepResult_posits_length, stepResult_tIndex] at hl
      omega

/-- Witness for C4 at a three-row state with the cursor on the last row. -/
theorem step_bounds_witness :
    { demoSim with tIndex := 2 }.posits.length = 3 ∧
    { demoSim with tIndex := 2 }.angles.length = 3 ∧
    ((3 ≤ { demoSim with tIndex := 2 }.tIndex →
      time_step KinematicBody.update_moi npcosTaylor npsinTaylor
        { demoSim with tIndex := 2 } ⟨1, 2, 3⟩ ⟨4, 5, 6⟩ (1/10) = none) ∧
    ({ demoSim with tIndex := 2 }.tIndex + 1 = 3 →
      ∃ sim2, time_step KinematicBody.update_moi npcosTaylor npsinTaylor
          { demoSim with tIndex := 2 } ⟨1, 2, 3⟩ ⟨4, 5, 6⟩ (1/10) = some sim2 ∧
        sim2.tIndex = 3 ∧
        time_step KinematicBody.update_moi npcosTaylor npsinTaylor sim2
          ⟨1, 2, 3⟩ ⟨4, 5, 6⟩ (1/10) = none)) :=
  ⟨rfl, rfl,
   step_bounds KinematicBody.update_moi npcosTaylor npsinTaylor
     ⟨1, 2, 3⟩ ⟨4, 5, 6⟩ (1/10) { demoSim with tIndex := 2 } 3 rfl rfl⟩

theorem runSteps_preserves_getD (u : KinematicBody → KinematicBody) (c s : ℚ → ℚ)
    (inputs : List (Vec3 × Vec3 × ℚ)) :
    ∀ (sim : KinematicSimulation) (i : ℕ), i < sim.tIndex →
      (runSteps u c s inputs sim).posits.getD i Vec3.zero =
          sim.posits.getD i Vec3.zero ∧
      (runSteps u c s inputs sim).angles.getD i Vec3.zero =
          sim.angles.getD i Vec3.zero := by
  induction inputs with
  | nil => exact fun sim i hi => ⟨rfl, rfl⟩
  | cons p rest ih =>
    intro sim i hi
    cases hstep : time_step u c s sim p.1 p.2.1 p.2.2 with
    | none =>
      simp [runSteps, hstep]
    | some sim2 =>
      obtain ⟨⟨h1, h2⟩, rfl⟩ := time_step_some_iff.mp hstep
      simp only [runSteps, hstep]
      have hi2 : i < (stepResult u c s sim p.1 p.2.1 p.2.2).tIndex := by
        rw [stepResult_tIndex]
        omega
      obtain ⟨hpp, haa⟩ := ih _ i hi2
      rw [hpp, haa]
      exact ⟨stepResult_posits_getD_ne u c s sim p.1 p.2.1 p.2.2 i (by omega),
             stepResult_angles_getD_ne u c s sim p.1 p.2.1 p.2.2 i (by omega)⟩

/--
C6: a successful `time_step` advances the cursor by exactly one, writes
only the history row at the pre-call cursor (every other row of both
histories, before or beyond, is unchanged), and every row strictly below
the pre-call cursor stays unchanged under any further sequence of calls.
The single updates of velocity, rotation rate and mass per call are the
equations established for C1-C3.
-/
theorem step_frame_effect (u : KinematicBody → KinematicBody) (c s : ℚ → ℚ)
    (forces torques : Vec3) (mdot : ℚ) (sim sim2 : KinematicSimulation)
    (h : time_step u c s sim forces torques mdot = some sim2) :
    sim2.tIndex = sim.tIndex + 1 ∧
    (∀ i, i ≠ sim.tIndex →
      sim2.posits.getD i Vec3.zero = sim.posits.getD i Vec3.zero ∧
      sim2.angles.getD i Vec3.zero = sim.angles.getD i Vec3.zero) ∧
    (∀ inputs : List (Vec3 × Vec3 × ℚ), ∀ i, i < sim.tIndex →
      (runSteps u c s inputs sim2).posits.getD i Vec3.zero =
          sim.posits.getD i Vec3.zero ∧
      (runSteps u c s inputs sim2).angles.getD i Vec3.zero =
          sim.angles.getD i Vec3.zero) := by
  obtain ⟨⟨h1, h2⟩, rfl⟩ := time_step_some_iff.mp h
  refine ⟨stepResult_tIndex u c s sim forces torques mdot, ?_, ?_⟩
  · intro i hi
    exact ⟨stepResult_posits_getD_ne u c s sim forces torques mdot i hi,
           stepResult_angles_getD_ne u c s sim forces torques mdot i hi⟩
  · intro inputs i hi
    have hi2 : i < (stepResult u c s sim forces torques mdot).tIndex := by
      rw [stepResult_tIndex]
      omega
    obtain ⟨hpp, haa⟩ := runSteps_preserves_getD u c s inputs _ i hi2
    rw [hpp, haa]
    exact ⟨stepResult_posits_getD_ne u c s sim forces torques mdot i (by omega),
           stepResult_angles_getD_ne u c s sim forces torques mdot i (by omega)⟩

/-- Witness for C6 at a concrete state with the cursor at 1. -/
theorem step_frame_effect_witness :
    time_step KinematicBody.update_moi npcosTaylor npsinTaylor demoSim
        ⟨1, 2, 3⟩ ⟨4, 5, 6⟩ (1/10) =
      some (stepResult KinematicBody.update_moi npcosTaylor npsinTaylor demoSim
        ⟨1, 2, 3⟩ ⟨4, 5, 6⟩ (1/10)) ∧
    ((stepResult KinematicBody.update_moi npcosTaylor npsinTaylor demoSim
        ⟨1, 2, 3⟩ ⟨4, 5, 6⟩ (1/10)).tIndex = demoSim.tIndex + 1 ∧
    (∀ i, i ≠ demoSim.tIndex →
      (stepResult KinematicBody.update_moi npcosTaylor npsinTaylor demoSim
          ⟨1, 2, 3⟩ ⟨4, 5, 6⟩ (1/10)).posits.getD i Vec3.zero =
        demoSim.posits.getD i Vec3.zero ∧
      (stepResult KinematicBody.update_moi npcosTaylor npsinTaylor demoSim
          ⟨1, 2, 3⟩ ⟨4, 5, 6⟩ (1/10)).angles.getD i Vec3.zero =
        demoSim.angles.getD i Vec3.zero) ∧
    (∀ inputs : List (Vec3 × Vec3 × ℚ), ∀ i, i < demoSim.tIndex →
      (runSteps KinematicBody.update_moi npcosTaylor npsinTaylor inputs
          (stepResult KinematicBody.update_moi npcosTaylor npsinTaylor demoSim
            ⟨1, 2, 3⟩ ⟨4, 5, 6⟩ (1/10))).posits.getD i Vec3.zero =
        demoSim.posits.getD i Vec3.zero ∧
      (runSteps KinematicBody.update_moi npcosTaylor npsinTaylor inputs
          (stepResult KinematicBody.update_moi npcosTaylor npsinTaylor demoSim
            ⟨1, 2, 3⟩ ⟨4, 5, 6⟩ (1/10))).angles.getD i Vec3.zero =
        demoSim.angles.getD i Vec3.zero)) :=
  ⟨time_step_eq_some _ _ _ _ _ _ _ (by decide) (by decide),
   step_frame_effect KinematicBody.update_moi npcosTaylor npsinTaylor
     ⟨1, 2, 3⟩ ⟨4, 5, 6⟩ (1/10) demoSim _
     (time_step_eq_some _ _ _ _ _ _ _ (by decide) (by decide))⟩

theorem linspace_length (start stop : ℚ) (num : ℕ) :
    (linspace start stop num).length = num := by
  rw [linspace, List.length_map, List.length_range]

theorem linspace_getD (start stop : ℚ) (num : ℕ) (i : ℕ) (hi : i < num) :
    (linspace start stop num).getD i 0 =
      start + (stop - start) * i / ((num : ℚ) - 1) := by
  rw [linspace, List.getD_eq_getElem?_getD, List.getElem?_map, List.getElem?_range hi]
  rfl

/--
C5 counterexample: with duration 1/2 and dt 1 the constructed time grid
is the single entry `[0]`, so it does not run up to `t = duration`
inclusive as the claim states for every construction.
-/
theorem grid_counterexample :
    (KinematicSimulation.init demoBody 10 (1/2) 1).times = [0] ∧
    ¬ ((1:ℚ)/2 ∈ (KinematicSimulation.init demoBody 10 (1/2) 1).times) := by
  constructor
  · show linspace 0 (1/2) ((⌊(1:ℚ)/2/1 + 1⌋).toNat) = [0]
    norm_num [linspace, List.range_succ]
  · intro hmem
    rw [show (KinematicSimulation.init demoBody 10 (1/2) 1).times = [0] from by
      show linspace 0 (1/2) ((⌊(1:ℚ)/2/1 + 1⌋).toNat) = [0]
      norm_num [linspace, List.range_succ]] at hmem
    norm_num at hmem

/--
C5 (amended): whenever `0 < dt ≤ duration`, the time grid has
`N = floor(duration/dt) + 1 ≥ 2` entries running from `t = 0` to
`t = duration` inclusive, the position and angle histories have exactly
`N` rows each, and these lengths (and the grid itself) are preserved by
every successful `time_step`.  (When `0 < duration < dt` the grid
degenerates to the single entry `t = 0`, see the counterexample.)
-/
theorem grid_shape (body : KinematicBody) (gravity duration dt : ℚ)
    (hdt : 0 < dt) (hdur : dt ≤ duration) :
    (KinematicSimulation.init body gravity duration dt).times.length
        = (⌊duration / dt⌋ + 1).toNat ∧
    (KinematicSimulation.init body gravity duration dt).posits.length
        = (⌊duration / dt⌋ + 1).toNat ∧
    (KinematicSimulation.init body gravity duration dt).angles.length
        = (⌊duration / dt⌋ + 1).toNat ∧
    2 ≤ (⌊duration / dt⌋ + 1).toNat ∧
    (KinematicSimulation.init body gravity duration dt).times.getD 0 0 = 0 ∧
    (KinematicSimulation.init body gravity duration dt).times.getD
        ((⌊duration / dt⌋ + 1).toNat - 1) 0 = duration ∧
    (∀ (u : KinematicBody → KinematicBody) (c s : ℚ → ℚ) (f t : Vec3) (m : ℚ)
        (s1 s2 : KinematicSimulation), time_step u c s s1 f t m = some s2 →
      s2.posits.length = s1.posits.length ∧ s2.angles.length = s1.angles.length ∧
      s2.times = s1.times) := by
  have hq : (1:ℚ) ≤ duration / dt := (le_div_iff₀ hdt).mpr (by linarith)
  have hfl : 1 ≤ ⌊duration / dt⌋ := by
    rw [Int.le_floor]
    exact_mod_cast hq
  have hNeq : (⌊duration / dt + 1⌋) = ⌊duration / dt⌋ + 1 := Int.floor_add_one _
  have hN2 : 2 ≤ (⌊duration / dt⌋ + 1).toNat := by omega
  refine ⟨?_, ?_, ?_, hN2, ?_, ?_, ?_⟩
  · show (linspace 0 duration ((⌊duration / dt + 1⌋).toNat)).length = _
    rw [linspace_length, hNeq]
  · show (List.replicate ((⌊duration / dt + 1⌋).toNat) Vec3.zero).length = _
    rw [List.length_replicate, hNeq]
  · show (List.replicate ((⌊duration / dt + 1⌋).toNat) Vec3.zero).length = _
    rw [List.length_replicate, hNeq]
  · show (linspace 0 duration ((⌊duration / dt + 1⌋).toNat)).getD 0 0 = 0
    rw [linspace_getD 0 duration _ 0 (by omega)]
    norm_num
  · show (linspace 0 duration ((⌊duration / dt + 1⌋).toNat)).getD
        ((⌊duration / dt⌋ + 1).toNat - 1) 0 = duration
    rw [hNeq, linspace_getD 0 duration _ _ (by omega)]
    have h1N : 1 ≤ (⌊duration / dt⌋ + 1).toNat := by omega
    rw [Nat.cast_sub h1N, Nat.cast_one]
    have hx : ((⌊duration / dt⌋ + 1).toNat : ℚ) - 1 ≠ 0 := by
      have : (2:ℚ) ≤ ((⌊duration / dt⌋ + 1).toNat : ℚ) := by exact_mod_cast hN2
      linarith
    rw [mul_div_assoc, div_self hx]
    ring
  · intro u c s f t m s1 s2 hstep
    obtain ⟨-, rfl⟩ := time_step_some_iff.mp hstep
    exact ⟨stepResult_posits_length u c s s1 f t m,
           stepResult_angles_length u c s s1 f t m,
           stepResult_times u c s s1 f t m⟩

/-- Witness for C5 (amended) at duration 2, dt 1. -/
theorem grid_shape_witness :
    (0:ℚ) < 1 ∧ (1:ℚ) ≤ 2 ∧
    ((KinematicSimulation.init demoBody 10 2 1).times.length
        = (⌊(2:ℚ) / 1⌋ + 1).toNat ∧
    (KinematicSimulation.init demoBody 10 2 1).posits.length
        = (⌊(2:ℚ) / 1⌋ + 1).toNat ∧
    (KinematicSimulation.init demoBody 10 2 1).angles.length
        = (⌊(2:ℚ) / 1⌋ + 1).toNat ∧
    2 ≤ (⌊(2:ℚ) / 1⌋ + 1).toNat ∧
    (KinematicSimulation.init demoBody 10 2 1).times.getD 0 0 = 0 ∧
    (KinematicSimulation.init demoBody 10 2 1).times.getD
        ((⌊(2:ℚ) / 1⌋ + 1).toNat - 1) 0 = 2 ∧
    (∀ (u : KinematicBody → KinematicBody) (c s : ℚ → ℚ) (f t : Vec3) (m : ℚ)
        (s1 s2 : KinematicSimulation), time_step u c s s1 f t m = some s2 →
      s2.posits.length = s1.posits.length ∧ s2.angles.length = s1.angles.length ∧
      s2.times = s1.times)) :=
  ⟨by norm_num, by norm_num, grid_shape demoBody 10 2 1 (by norm_num) (by norm_num)⟩

theorem Vec3.sdiv_y (a : Vec3) (q : ℚ) : (Vec3.sdiv a q).y = a.y / q := rfl

theorem Vec3.ediv_y (a b : Vec3) : (Vec3.ediv a b).y = a.y / b.y := rfl

theorem time_step_yQuiet (u : KinematicBody → KinematicBody) (moiFn : ℚ → Vec3)
    (hI : ∀ b, u b = { b with MoI := moiFn b.mass })
    (c s : ℚ → ℚ) (sim sim2 : KinematicSimulation) (forces torques : Vec3) (mdot : ℚ)
    (h : time_step u c s sim forces torques mdot = some sim2)
    (hq : yQuiet sim) (hf : forces.y = 0) (ht : torques.y = 0) :
    yQuiet sim2 := by
  obtain ⟨⟨h1, h2⟩, rfl⟩ := time_step_some_iff.mp h
  obtain ⟨hv, hr, hp, ha⟩ := hq
  have hmidv : (u (midBody sim mdot)).vel = sim.body.vel := by
    rw [hI]
    rfl
  have hmidr : (u (midBody sim mdot)).rot = sim.body.rot := by
    rw [hI]
    rfl
  have hvel : (stepResult u c s sim forces torques mdot).body.vel.y = 0 := by
    rw [stepResult_body_vel, Vec3.add_y, Vec3.smul_y, hmidv, hv]
    show 0 + sim.dt * (rotApply (c (stepTheta sim)) (s (stepTheta sim))
        (Vec3.sdiv forces (u (midBody sim mdot)).mass)).y = 0
    rw [rotApply_y, Vec3.sdiv_y, hf, zero_div, mul_zero, add_zero]
  have hrot : (stepResult u c s sim forces torques mdot).body.rot.y = 0 := by
    rw [stepResult_body_rot, Vec3.add_y, Vec3.smul_y, hmidr, hr, rotApply_y,
      Vec3.ediv_y, ht, zero_div, mul_zero, add_zero]
  refine ⟨hvel, hrot, ?_, ?_⟩
  · intro i
    by_cases hi : i = sim.tIndex
    · subst hi
      rw [stepResult_posits_getD_self u c s sim forces torques mdot h1,
        Vec3.add_y, Vec3.smul_y, Vec3.add_y, hvel, hmidv, hv, hp]
      norm_num
    · rw [stepResult_posits_getD_ne u c s sim forces torques mdot i hi]
      exact hp i
  · intro i
    by_cases hi : i = sim.tIndex
    · subst hi
      rw [stepResult_angles_getD_self u c s sim forces torques mdot h2,
        Vec3.add_y, Vec3.smul_y, Vec3.add_y, hrot, hmidr, hr, ha]
      norm_num
    · rw [stepResult_angles_getD_ne u c s sim forces torques mdot i hi]
      exact ha i

theorem runSteps_yQuiet (u : KinematicBody → KinematicBody) (moiFn : ℚ → Vec3)
    (hI : ∀ b, u b = { b with MoI := moiFn b.mass })
    (c s : ℚ → ℚ) (inputs : List (Vec3 × Vec3 × ℚ)) :
    ∀ sim : KinematicSimulation, yQuiet sim →
      (∀ p ∈ inputs, p.1.y = 0 ∧ p.2.1.y = 0) →
      yQuiet (runSteps u c s inputs sim) := by
  induction inputs with
  | nil => exact fun sim hq _ => hq
  | cons p rest ih =>
    intro sim hq hin
    cases hstep : time_step u c s sim p.1 p.2.1 p.2.2 with
    | none =>
      simp only [runSteps, hstep]
      exact hq
    | some sim2 =>
      simp only [runSteps, hstep]
      exact ih sim2
        (time_step_yQuiet u moiFn hI c s sim sim2 p.1 p.2.1 p.2.2 hstep hq
          (hin p (List.mem_cons_self p rest)).1 (hin p (List.mem_cons_self p rest)).2)
        (fun q hq2 => hin q (List.mem_cons_of_mem p hq2))

/--
C10: the global y axis decouples from pitch.  The middle row of the
rotation matrix is `[0, 1, 0]`, so applying it preserves the y component
of any vector; in every successful step the global y angular acceleration
is `torques.y / Iyy` (inertia at the mid-step mass) and the global y
linear acceleration is `forces.y / mass` (mid-step mass), independent of
the pitch angle; consequently a run whose state has all y components zero
and whose steps all supply zero y force and torque keeps every y
component (velocity, rotation rate, position rows, angle rows) exactly
zero.
-/
theorem y_axis_decoupled (u : KinematicBody → KinematicBody) (moiFn : ℚ → Vec3)
    (hI : ∀ b, u b = { b with MoI := moiFn b.mass }) (c s : ℚ → ℚ) :
    (∀ cv sv : ℚ, ∀ v : Vec3, (rotApply cv sv v).y = v.y) ∧
    (∀ (sim sim2 : KinematicSimulation) (forces torques : Vec3) (mdot : ℚ),
      time_step u c s sim forces torques mdot = some sim2 →
      sim2.body.rot.y = sim.body.rot.y +
        torques.y / (moiFn (sim.body.mass - mdot * (1/2) * sim.dt)).y * sim.dt ∧
      sim2.body.vel.y = sim.body.vel.y +
        forces.y / (sim.body.mass - mdot * (1/2) * sim.dt) * sim.dt) ∧
    (∀ (inputs : List (Vec3 × Vec3 × ℚ)) (sim : KinematicSimulation),
      yQuiet sim → (∀ p ∈ inputs, p.1.y = 0 ∧ p.2.1.y = 0) →
      yQuiet (runSteps u c s inputs sim)) := by
  refine ⟨fun cv sv v => rotApply_y cv sv v, ?_, runSteps_yQuiet u moiFn hI c s⟩
  intro sim sim2 forces torques mdot h
  obtain ⟨⟨h1, h2⟩, rfl⟩ := time_step_some_iff.mp h
  have hmidv : (u (midBody sim mdot)).vel = sim.body.vel := by
    rw [hI]
    rfl
  have hmidr : (u (midBody sim mdot)).rot = sim.body.rot := by
    rw [hI]
    rfl
  have hmidm : (u (midBody sim mdot)).mass
      = sim.body.mass - mdot * (1/2) * sim.dt := by
    rw [hI]
    rfl
  have hmidI : (u (midBody sim mdot)).MoI
      = moiFn (sim.body.mass - mdot * (1/2) * sim.dt) := by
    rw [hI]
    rfl
  constructor
  · rw [stepResult_body_rot, Vec3.add_y, Vec3.smul_y, hmidr, rotApply_y,
      Vec3.ediv_y, hmidI]
    ring
  · rw [stepResult_body_vel, Vec3.add_y, Vec3.smul_y, hmidv]
    show sim.body.vel.y + sim.dt * (rotApply (c (stepTheta sim)) (s (stepTheta sim))
        (Vec3.sdiv forces (u (midBody sim mdot)).mass)).y = _
    rw [rotApply_y, Vec3.sdiv_y, hmidm]
    ring

/-- Witness for C10 with the cylinder inertia model and Taylor trig. -/
theorem y_axis_decoupled_witness :
    (∀ b, CylinderRocket.update_moi b = { b with MoI := cylMoI b.mass }) ∧
    ((∀ cv sv : ℚ, ∀ v : Vec3, (rotApply cv sv v).y = v.y) ∧
    (∀ (sim sim2 : KinematicSimulation) (forces torques : Vec3) (mdot : ℚ),
      time_step CylinderRocket.update_moi npcosTaylor npsinTaylor sim
          forces torques mdot = some sim2 →
      sim2.body.rot.y = sim.body.rot.y +
        torques.y / (cylMoI (sim.body.mass - mdot * (1/2) * sim.dt)).y * sim.dt ∧
      sim2.body.vel.y = sim.body.vel.y +
        forces.y / (sim.body.mass - mdot * (1/2) * sim.dt) * sim.dt) ∧
    (∀ (inputs : List (Vec3 × Vec3 × ℚ)) (sim : KinematicSimulation),
      yQuiet sim → (∀ p ∈ inputs, p.1.y = 0 ∧ p.2.1.y = 0) →
      yQuiet (runSteps CylinderRocket.update_moi npcosTaylor npsinTaylor inputs sim))) :=
  ⟨fun b => rfl,
   y_axis_decoupled CylinderRocket.update_moi cylMoI (fun b => rfl)
     npcosTaylor npsinTaylor⟩

set_option maxRecDepth 100000 in
unseal Rat.add Rat.mul Rat.inv Rat.sub in
/--
C8: the end-to-end scenario of `examples/kinematics_example.py`: a 100 kg
uniform cylinder (radius 0.3, height 2), dt 1, duration 100, gravity
9.81, force `[2, 0, thrust]` with thrust 2000 while `tIndex*dt <= 50` and
0 after, zero torques, mdot 0.1.  All 100 one-second steps succeed (the
final cursor is 101) and the final z position is within 1 metre of 27670
(the exact rational value is 27670.7820... m).
-/
theorem end_to_end_z :
    exampleFinal.tIndex = 101 ∧
    |(exampleFinal.posits.getD 100 Vec3.zero).z - 27670| < 1 := by
  decide

end Firefish
